import Mathlib

/-!
Shallow embedding of the AnonToken relayer's balance-and-ledger core:
`src/db-service.ts` (database operations), `src/relayer.ts` (the
shield / send / unshield orchestrators) and `src/create-tables.sql`
(the table constraints).

Modelling conventions, fixed once here:

* The three tables are lists of rows held in a `DBState`, in insertion
  order.  A SQL `SELECT ... WHERE key = v` that the source consumes via
  `result[0]` is `List.find?` (first match); the `UNIQUE` constraints of
  `create-tables.sql` keep at most one match in reachable states.
* Numeric columns are `DECIMAL(36,18)`; amounts and balances are
  modelled as exact rationals `ℚ`.
* `Date.now()` is modelled as an explicit clock parameter `now : ℕ`
  (epoch milliseconds) threaded to the operations that read the clock.
* A thrown JS error is `Except.error`; every database operation returns
  the pair (state after the operation, result).  An operation that
  throws before issuing any write returns the state unchanged, exactly
  as the real database would be left.
* The `UNIQUE` constraints (`transactions.signature`,
  `token_pools.token_mint`) are enforced at the modelled `INSERT`, as
  Postgres enforces them, by a membership test on the current rows.
* External collaborators (chain reader, proof stub, address
  derivation) are parameters: `txFound : Bool` for
  `connection.getTransaction`, `chainOk : Bool` for the simulated
  on-chain payout steps of `/unshield`, `derivedAddr` for
  `PublicKey.findProgramAddress`.  None of them touches the database.
-/

namespace AnonToken

abbrev Owner := String
abbrev Mint := String

/-- `type TEXT CHECK (type IN ('shield','send','unshield'))` of
`create-tables.sql`, the closed transaction-type enum. -/
inductive TxType where
  | shield
  | send
  | unshield
deriving DecidableEq

/-- Row of `token_pools` (`id`, `symbol`, `created_at` omitted: no claim
mentions them). -/
structure TokenPool where
  tokenMint : Mint
  decimals : Int
  poolAddress : String
  totalShielded : ℚ
  totalUnshielded : ℚ
deriving DecidableEq

/-- Row of `private_balances` (`id`, `updated_at` omitted). -/
structure PrivateBalance where
  owner : Owner
  tokenMint : Mint
  balance : ℚ
  lastCommitmentIndex : Int
deriving DecidableEq

/-- Row of `transactions` (`id`, `created_at` omitted). -/
structure Transaction where
  owner : Owner
  type : TxType
  tokenMint : Mint
  tokenSymbol : String
  amount : ℚ
  timestamp : ℕ
  recipient : Option Owner
  signature : String
deriving DecidableEq

/-- The whole database: the three tables of `create-tables.sql`, rows in
insertion order. -/
structure DBState where
  tokenPools : List TokenPool
  privateBalances : List PrivateBalance
  transactions : List Transaction
deriving DecidableEq

/-- The error taxonomy the code can actually raise.  The names follow
the spec's taxonomy; the string thrown by the source is noted at each
raise site. -/
inductive DbError where
  /-- relayer route guard: `if (!a || !b || ...) return 400` -/
  | missingParameters
  /-- `/shield/notify`: `connection.getTransaction` returned null -/
  | txNotFound
  /-- `throw new Error("Insufficient private balance")` -/
  | insufficientBalance
  /-- `throw new Error("Cannot deduct from non-existent balance")` -/
  | unknownBalance
  /-- Postgres unique-constraint violation on `transactions.signature` -/
  | duplicateSignature
  /-- Postgres unique-constraint violation on `token_pools.token_mint` -/
  | duplicateMint
  /-- Postgres unique-constraint violation on `private_balances(owner, token_mint)` -/
  | uniqueViolation
  /-- a simulated external (chain) step failed -/
  | externalFailure
deriving DecidableEq

/-- `getTokenPool`: `SELECT * FROM token_pools WHERE token_mint = $m`,
`result[0]` or null. -/
def getTokenPool (s : DBState) (tokenMint : Mint) : Option TokenPool :=
  s.tokenPools.find? (fun p => p.tokenMint == tokenMint)

/-- `getPrivateBalance`: `SELECT * FROM private_balances WHERE owner = $o
AND token_mint = $m`, `result[0]` or null. -/
def getPrivateBalance (s : DBState) (owner : Owner) (tokenMint : Mint) :
    Option PrivateBalance :=
  s.privateBalances.find? (fun b => b.owner == owner && b.tokenMint == tokenMint)

/-- The `UPDATE private_balances SET balance = $v WHERE owner = $o AND
token_mint = $m` issued inside `updatePrivateBalance`. -/
def setPrivateBalance (s : DBState) (owner : Owner) (tokenMint : Mint) (v : ℚ) :
    DBState :=
  { s with
    privateBalances :=
      s.privateBalances.map (fun b =>
        if b.owner == owner && b.tokenMint == tokenMint then
          { b with balance := v }
        else b) }

/-- `updatePrivateBalance` of `db-service.ts` (lines 223-273): read the
current row, compute `newBalance`, reject if it would be negative,
update the row; with no row, insert on a credit and throw on a debit.
The read and the write are separate database commands in the source --
the interleaved version of exactly these two steps is `raceStep`
below. -/
def updatePrivateBalance (s : DBState) (owner : Owner) (tokenMint : Mint)
    (amount : ℚ) (isAddition : Bool) : DBState × Except DbError PrivateBalance :=
  match getPrivateBalance s owner tokenMint with
  | some existingBalance =>
      let currentBalance := existingBalance.balance
      let newBalance :=
        if isAddition then currentBalance + amount else currentBalance - amount
      if newBalance < 0 then
        (s, Except.error DbError.insufficientBalance)
      else
        (setPrivateBalance s owner tokenMint newBalance,
         Except.ok { existingBalance with balance := newBalance })
  | none =>
      if isAddition then
        let row : PrivateBalance :=
          { owner := owner, tokenMint := tokenMint, balance := amount,
            lastCommitmentIndex := 0 }
        ({ s with privateBalances := s.privateBalances ++ [row] }, Except.ok row)
      else
        (s, Except.error DbError.unknownBalance)

/-- The balance the ledger reports for a key: the stored value, or 0
when no row exists. -/
def balanceOf (s : DBState) (owner : Owner) (tokenMint : Mint) : ℚ :=
  match getPrivateBalance s owner tokenMint with
  | some b => b.balance
  | none => 0

/-- `recordTransaction` (db-service.ts lines 282-317): one `INSERT` into
`transactions`, with the `UNIQUE` constraint on `signature`
(create-tables.sql line 34) enforced at the insert.  `timestamp` is
`Date.now()` at the call, the explicit `now`. -/
def recordTransaction (s : DBState) (owner : Owner) (type : TxType)
    (tokenMint : Mint) (tokenSymbol : String) (amount : ℚ) (now : ℕ)
    (signature : String) (recipient : Option Owner) :
    DBState × Except DbError Transaction :=
  if s.transactions.any (fun t => t.signature == signature) then
    (s, Except.error DbError.duplicateSignature)
  else
    let tx : Transaction :=
      { owner := owner, type := type, tokenMint := tokenMint,
        tokenSymbol := tokenSymbol, amount := amount, timestamp := now,
        recipient := recipient, signature := signature }
    ({ s with transactions := s.transactions ++ [tx] }, Except.ok tx)

/-- `updateTokenPoolShielded` (db-service.ts lines 134-145):
`UPDATE token_pools SET total_shielded = total_shielded + $a WHERE
token_mint = $m`.  An `UPDATE` matching zero rows is not an error. -/
def updateTokenPoolShielded (s : DBState) (tokenMint : Mint) (amount : ℚ) :
    DBState :=
  { s with
    tokenPools :=
      s.tokenPools.map (fun p =>
        if p.tokenMint == tokenMint then
          { p with totalShielded := p.totalShielded + amount }
        else p) }

/-- `updateTokenPoolUnshielded` (db-service.ts lines 150-161), same
shape on `total_unshielded`. -/
def updateTokenPoolUnshielded (s : DBState) (tokenMint : Mint) (amount : ℚ) :
    DBState :=
  { s with
    tokenPools :=
      s.tokenPools.map (fun p =>
        if p.tokenMint == tokenMint then
          { p with totalUnshielded := p.totalUnshielded + amount }
        else p) }

/-- `createTokenPool` (db-service.ts lines 108-129): `INSERT` with the
`UNIQUE` constraint on `token_mint`; fresh pools start with totals 0
(the column defaults). -/
def createTokenPool (s : DBState) (tokenMint : Mint) (decimals : Int)
    (poolAddress : String) : DBState × Except DbError TokenPool :=
  if s.tokenPools.any (fun p => p.tokenMint == tokenMint) then
    (s, Except.error DbError.duplicateMint)
  else
    let pool : TokenPool :=
      { tokenMint := tokenMint, decimals := decimals,
        poolAddress := poolAddress, totalShielded := 0, totalUnshielded := 0 }
    ({ s with tokenPools := s.tokenPools ++ [pool] }, Except.ok pool)

/-- `getOrCreateTokenPool` of `relayer.ts` (lines 51-61); the derived
pool address is the external collaborator's answer `derivedAddr`. -/
def getOrCreateTokenPool (s : DBState) (tokenMint : Mint) (decimals : Int)
    (derivedAddr : String) : DBState × Except DbError TokenPool :=
  match getTokenPool s tokenMint with
  | some existingPool => (s, Except.ok existingPool)
  | none => createTokenPool s tokenMint decimals derivedAddr

/-- The symbol-resolution block shared by the three routes:
`"UNKNOWN"` unless a pool exists, then `"SOL"` or the first four
characters of the mint. -/
def resolveSymbol (s : DBState) (tokenMint : Mint) : String :=
  match getTokenPool s tokenMint with
  | some _ => if tokenMint == "SOL" then "SOL" else tokenMint.take 4
  | none => "UNKNOWN"

/-- `getTransactions` (db-service.ts lines 322-358): filter by owner
(and mint when given), `ORDER BY timestamp DESC`, `LIMIT limit`.  The
sort is modelled by the insertion sort `sortByTsDesc` below, which
produces a timestamp-non-increasing permutation exactly as the SQL
`ORDER BY ... DESC` does (ties ordered arbitrarily). -/
def insertByTs (t : Transaction) : List Transaction → List Transaction
  | [] => [t]
  | u :: rest =>
      if u.timestamp < t.timestamp then t :: u :: rest else u :: insertByTs t rest

def sortByTsDesc : List Transaction → List Transaction
  | [] => []
  | t :: rest => insertByTs t (sortByTsDesc rest)

def getTransactions (s : DBState) (owner : Owner) (tokenMint : Option Mint)
    (limit : ℕ) : List Transaction :=
  let rows :=
    match tokenMint with
    | some m => s.transactions.filter (fun t => t.owner == owner && t.tokenMint == m)
    | none => s.transactions.filter (fun t => t.owner == owner)
  (sortByTsDesc rows).take limit

/-- The source signature is `getTransactions(owner, tokenMint?, limit = 50)`:
the default for an omitted limit. -/
def getTransactionsDefault (s : DBState) (owner : Owner)
    (tokenMint : Option Mint) : List Transaction :=
  getTransactions s owner tokenMint 50

/-- `POST /shield/notify` (relayer.ts lines 118-155): falsiness guard on
the body fields, chain lookup, ledger credit, pool total update, symbol
resolution, log write.  A step that throws ends the handler with the
database as that step left it. -/
def shieldNotify (s : DBState) (txFound : Bool) (now : ℕ) (txSignature : String)
    (tokenMint : Mint) (amount : ℚ) (commitment : String) (owner : Owner) :
    DBState × Except DbError Unit :=
  if txSignature == "" || tokenMint == "" || amount == 0 || commitment == "" ||
      owner == "" then
    (s, Except.error DbError.missingParameters)
  else if !txFound then
    (s, Except.error DbError.txNotFound)
  else
    match updatePrivateBalance s owner tokenMint amount true with
    | (s1, Except.error e) => (s1, Except.error e)
    | (s1, Except.ok _) =>
        let s2 := updateTokenPoolShielded s1 tokenMint amount
        let tokenSymbol := resolveSymbol s2 tokenMint
        match recordTransaction s2 owner TxType.shield tokenMint tokenSymbol
            amount now txSignature none with
        | (s3, Except.error e) => (s3, Except.error e)
        | (s3, Except.ok _) => (s3, Except.ok ())

/-- `POST /send` (relayer.ts lines 158-194): guard, debit the sender,
credit the recipient, synthesize the signature
`simulated-send-${Date.now()}`, resolve the symbol, log. -/
def sendHandler (s : DBState) (now : ℕ) (tokenMint : Mint) (amount : ℚ)
    (recipient : Owner) (proof : String) (sender : Owner) :
    DBState × Except DbError String :=
  if tokenMint == "" || amount == 0 || recipient == "" || proof == "" ||
      sender == "" then
    (s, Except.error DbError.missingParameters)
  else
    match updatePrivateBalance s sender tokenMint amount false with
    | (s1, Except.error e) => (s1, Except.error e)
    | (s1, Except.ok _) =>
        match updatePrivateBalance s1 recipient tokenMint amount true with
        | (s2, Except.error e) => (s2, Except.error e)
        | (s2, Except.ok _) =>
            let signature := "simulated-send-" ++ toString now
            let tokenSymbol := resolveSymbol s2 tokenMint
            match recordTransaction s2 sender TxType.send tokenMint tokenSymbol
                amount now signature (some recipient) with
            | (s3, Except.error e) => (s3, Except.error e)
            | (s3, Except.ok _) => (s3, Except.ok signature)

/-- `POST /unshield` (relayer.ts lines 197-264): guard, debit the
sender, bump the pool's unshielded total, resolve the pool
(`getOrCreateTokenPool` with decimals 0), run the simulated on-chain
payout steps (`chainOk`, no database effect), synthesize
`simulated-unshield-${Date.now()}`, resolve the symbol, log. -/
def unshieldHandler (s : DBState) (chainOk : Bool) (now : ℕ) (tokenMint : Mint)
    (amount : ℚ) (recipient : Owner) (proof : String) (sender : Owner)
    (derivedAddr : String) : DBState × Except DbError String :=
  if tokenMint == "" || amount == 0 || recipient == "" || proof == "" ||
      sender == "" then
    (s, Except.error DbError.missingParameters)
  else
    match updatePrivateBalance s sender tokenMint amount false with
    | (s1, Except.error e) => (s1, Except.error e)
    | (s1, Except.ok _) =>
        let s2 := updateTokenPoolUnshielded s1 tokenMint amount
        match getOrCreateTokenPool s2 tokenMint 0 derivedAddr with
        | (s3, Except.error e) => (s3, Except.error e)
        | (s3, Except.ok _) =>
            if !chainOk then (s3, Except.error DbError.externalFailure)
            else
              let signature := "simulated-unshield-" ++ toString now
              let tokenSymbol := resolveSymbol s3 tokenMint
              match recordTransaction s3 sender TxType.unshield tokenMint
                  tokenSymbol amount now signature none with
              | (s4, Except.error e) => (s4, Except.error e)
              | (s4, Except.ok _) => (s4, Except.ok signature)

/-!
Interleaving model of `updatePrivateBalance`.  The source awaits two
separate database commands: the `SELECT` inside `getPrivateBalance`,
then the `UPDATE`/`INSERT`.  A concurrent call can run between them.
`raceStep` is `updatePrivateBalance` cut at exactly that await point:
phase one performs the `SELECT` and stores the snapshot; phase two runs
the remaining straight-line code on the snapshot, issuing the write
against the then-current database (the modelled `INSERT` still enforces
the unique key, as Postgres would).
-/

structure RaceOp where
  owner : Owner
  tokenMint : Mint
  amount : ℚ
  isAddition : Bool

inductive RacePhase where
  | notStarted
  | readDone (snapshot : Option PrivateBalance)
  | finished (result : Except DbError Unit)

def raceStep (s : DBState) (op : RaceOp) : RacePhase → DBState × RacePhase
  | RacePhase.notStarted =>
      (s, RacePhase.readDone (getPrivateBalance s op.owner op.tokenMint))
  | RacePhase.readDone (some existingBalance) =>
      let currentBalance := existingBalance.balance
      let newBalance :=
        if op.isAddition then currentBalance + op.amount
        else currentBalance - op.amount
      if newBalance < 0 then
        (s, RacePhase.finished (Except.error DbError.insufficientBalance))
      else
        (setPrivateBalance s op.owner op.tokenMint newBalance,
         RacePhase.finished (Except.ok ()))
  | RacePhase.readDone none =>
      if op.isAddition then
        if (getPrivateBalance s op.owner op.tokenMint).isSome then
          (s, RacePhase.finished (Except.error DbError.uniqueViolation))
        else
          ({ s with
             privateBalances :=
               s.privateBalances ++
                 [{ owner := op.owner, tokenMint := op.tokenMint,
                    balance := op.amount, lastCommitmentIndex := 0 }] },
           RacePhase.finished (Except.ok ()))
      else
        (s, RacePhase.finished (Except.error DbError.unknownBalance))
  | RacePhase.finished r => (s, RacePhase.finished r)

/-- Run two in-flight calls under a schedule: `true` steps the first
call, `false` the second. -/
def raceExec (opA opB : RaceOp) :
    List Bool → DBState × RacePhase × RacePhase → DBState × RacePhase × RacePhase
  | [], c => c
  | true :: rest, (s, pa, pb) =>
      let step := raceStep s opA pa
      raceExec opA opB rest (step.1, step.2, pb)
  | false :: rest, (s, pa, pb) =>
      let step := raceStep s opB pb
      raceExec opA opB rest (step.1, pa, step.2)

/-! Concrete states used by the closed theorems below. -/

/-- One owner holding 100 units of SOL, no pools, empty log. -/
def ex1 : DBState :=
  { tokenPools := [],
    privateBalances :=
      [{ owner := "alice", tokenMint := "SOL", balance := 100,
         lastCommitmentIndex := 0 }],
    transactions := [] }

/-- A debit of the full 100-unit balance of (alice, SOL). -/
def debitAll : RaceOp :=
  { owner := "alice", tokenMint := "SOL", amount := 100, isAddition := false }

/-- The empty database. -/
def ex0 : DBState := { tokenPools := [], privateBalances := [], transactions := [] }

/-- Two transactions for alice recorded at the same clock value 77,
under distinct signatures (a reachable state: e.g. a shield whose
external signature differs from a send's synthetic one, landing in the
same millisecond). -/
def exLog1 : DBState :=
  (recordTransaction ex0 "alice" TxType.shield "SOL" "SOL" 10 77 "sig-a" none).1

def exLog2 : DBState :=
  (recordTransaction exLog1 "alice" TxType.send "SOL" "SOL" 5 77 "sig-b"
    (some "bob")).1

/-- The two rows recorded in `exLog2`, for stating query results. -/
def txShieldEx : Transaction :=
  { owner := "alice", type := TxType.shield, tokenMint := "SOL",
    tokenSymbol := "SOL", amount := 10, timestamp := 77, recipient := none,
    signature := "sig-a" }

def txSendEx : Transaction :=
  { owner := "alice", type := TxType.send, tokenMint := "SOL",
    tokenSymbol := "SOL", amount := 5, timestamp := 77,
    recipient := some "bob", signature := "sig-b" }

/-- A registry holding one SOL pool. -/
def exPool : DBState :=
  { tokenPools :=
      [{ tokenMint := "SOL", decimals := 9, poolAddress := "pool-addr",
         totalShielded := 10, totalUnshielded := 2 }],
    privateBalances := [], transactions := [] }

/-- Two owners with funded SOL balances, no pools, empty log. -/
def exTwo : DBState :=
  { tokenPools := [],
    privateBalances :=
      [{ owner := "alice", tokenMint := "SOL", balance := 100,
         lastCommitmentIndex := 0 },
       { owner := "bob", tokenMint := "SOL", balance := 50,
         lastCommitmentIndex := 0 }],
    transactions := [] }

/-- Whether an in-flight call has finished successfully. -/
def phaseOk : RacePhase → Bool
  | RacePhase.finished (Except.ok _) => true
  | _ => false

/-- Whether an in-flight call has finished with the given error. -/
def phaseErr : RacePhase → DbError → Bool
  | RacePhase.finished (Except.error e), e' => e == e'
  | _, _ => false

/-! ### Lookup / update lemmas for the balance table -/

theorem find?_update_self (l : List PrivateBalance) (o : Owner) (m : Mint) (v : ℚ)
    (b : PrivateBalance)
    (h : l.find? (fun x => x.owner == o && x.tokenMint == m) = some b) :
    (l.map (fun x =>
        if x.owner == o && x.tokenMint == m then { x with balance := v } else x)).find?
      (fun x => x.owner == o && x.tokenMint == m) = some { b with balance := v } := by
  induction l with
  | nil => simp at h
  | cons hd tl ih =>
      by_cases hc : (hd.owner == o && hd.tokenMint == m) = true
      · simp only [List.find?_cons, hc] at h
        injection h with hb
        subst hb
        simp only [List.map_cons, if_pos hc]
        simp [List.find?_cons, hc]
      · simp only [List.find?_cons, Bool.eq_false_iff.mpr hc] at h
        simp only [List.map_cons, if_neg hc]
        simp only [List.find?_cons, Bool.eq_false_iff.mpr hc]
        exact ih h

theorem find?_update_other (l : List PrivateBalance) (o : Owner) (m : Mint)
    (o' : Owner) (m' : Mint) (v : ℚ) (hk : o' ≠ o ∨ m' ≠ m) :
    (l.map (fun x =>
        if x.owner == o && x.tokenMint == m then { x with balance := v } else x)).find?
      (fun x => x.owner == o' && x.tokenMint == m') =
    l.find? (fun x => x.owner == o' && x.tokenMint == m') := by
  induction l with
  | nil => rfl
  | cons hd tl ih =>
      have howner :
          (if hd.owner == o && hd.tokenMint == m then { hd with balance := v }
            else hd).owner = hd.owner := by
        split <;> rfl
      have htok :
          (if hd.owner == o && hd.tokenMint == m then { hd with balance := v }
            else hd).tokenMint = hd.tokenMint := by
        split <;> rfl
      simp only [List.map_cons]
      by_cases hc : (hd.owner == o' && hd.tokenMint == m') = true
      · have hkeys : hd.owner = o' ∧ hd.tokenMint = m' := by
          simpa [Bool.and_eq_true, beq_iff_eq] using hc
        have hnc : ¬ (hd.owner == o && hd.tokenMint == m) = true := by
          intro hcontra
          have hkeys2 : hd.owner = o ∧ hd.tokenMint = m := by
            simpa [Bool.and_eq_true, beq_iff_eq] using hcontra
          rcases hk with hk | hk
          · exact hk (hkeys.1.symm.trans hkeys2.1)
          · exact hk (hkeys.2.symm.trans hkeys2.2)
        rw [if_neg hnc]
        simp only [List.find?_cons, hc]
      · have hc2 :
            ((if hd.owner == o && hd.tokenMint == m then { hd with balance := v }
                else hd).owner == o' &&
             (if hd.owner == o && hd.tokenMint == m then { hd with balance := v }
                else hd).tokenMint == m') = false := by
          rw [howner, htok]
          exact Bool.eq_false_iff.mpr hc
        simp only [List.find?_cons, hc2, Bool.eq_false_iff.mpr hc]
        exact ih

theorem find?_append_none (l : List PrivateBalance) (x : PrivateBalance)
    (p : PrivateBalance → Bool) (hx : p x = false) :
    (l ++ [x]).find? p = l.find? p := by
  rw [List.find?_append]
  simp [List.find?_cons, hx]

/-! ### Frame and effect lemmas for the database operations -/

theorem setPrivateBalance_transactions (s : DBState) (o : Owner) (m : Mint) (v : ℚ) :
    (setPrivateBalance s o m v).transactions = s.transactions := rfl

theorem setPrivateBalance_tokenPools (s : DBState) (o : Owner) (m : Mint) (v : ℚ) :
    (setPrivateBalance s o m v).tokenPools = s.tokenPools := rfl

theorem updatePrivateBalance_transactions (s : DBState) (o : Owner) (m : Mint)
    (a : ℚ) (add : Bool) :
    (updatePrivateBalance s o m a add).1.transactions = s.transactions := by
  unfold updatePrivateBalance
  cases h : getPrivateBalance s o m <;> dsimp only <;> split <;> (try split) <;> rfl

theorem updatePrivateBalance_tokenPools (s : DBState) (o : Owner) (m : Mint)
    (a : ℚ) (add : Bool) :
    (updatePrivateBalance s o m a add).1.tokenPools = s.tokenPools := by
  unfold updatePrivateBalance
  cases h : getPrivateBalance s o m <;> dsimp only <;> split <;> (try split) <;> rfl

theorem updatePrivateBalance_err_state (s s' : DBState) (o : Owner) (m : Mint)
    (a : ℚ) (add : Bool) (e : DbError)
    (h : updatePrivateBalance s o m a add = (s', Except.error e)) : s' = s := by
  unfold updatePrivateBalance at h
  cases hg : getPrivateBalance s o m <;> rw [hg] at h <;> dsimp only at h
  case none =>
    split at h
    · injection h with h1 h2
      simp at h2
    · injection h with h1 h2
      exact h1.symm
  case some b =>
    split at h <;> split at h <;> injection h with h1 h2 <;>
      first | exact h1.symm | simp at h2

theorem getPrivateBalance_updatePrivateBalance_other (s : DBState) (o : Owner)
    (m : Mint) (a : ℚ) (add : Bool) (o' : Owner) (m' : Mint)
    (hk : o' ≠ o ∨ m' ≠ m) :
    getPrivateBalance (updatePrivateBalance s o m a add).1 o' m' =
      getPrivateBalance s o' m' := by
  unfold updatePrivateBalance
  cases hg : getPrivateBalance s o m with
  | some b =>
      dsimp only
      split <;> split <;>
        first
          | rfl
          | exact find?_update_other s.privateBalances o m o' m' _ hk
  | none =>
      dsimp only
      split
      · show (s.privateBalances ++ [_]).find? _ = _
        refine find?_append_none _ _ _ ?_
        have : ¬ (o = o' ∧ m = m') := by
          rintro ⟨rfl, rfl⟩
          rcases hk with hk | hk <;> exact hk rfl
        by_cases h1 : o = o'
        · have h2 : m ≠ m' := fun hm => this ⟨h1, hm⟩
          simp [h1, h2]
        · simp [h1]
      · rfl

theorem balanceOf_updatePrivateBalance_other (s : DBState) (o : Owner) (m : Mint)
    (a : ℚ) (add : Bool) (o' : Owner) (m' : Mint) (hk : o' ≠ o ∨ m' ≠ m) :
    balanceOf (updatePrivateBalance s o m a add).1 o' m' = balanceOf s o' m' := by
  unfold balanceOf
  rw [getPrivateBalance_updatePrivateBalance_other s o m a add o' m' hk]

theorem balanceOf_getPrivateBalance (s : DBState) (o : Owner) (m : Mint)
    (b : PrivateBalance) (h : getPrivateBalance s o m = some b) :
    balanceOf s o m = b.balance := by
  unfold balanceOf
  rw [h]

theorem balanceOf_none (s : DBState) (o : Owner) (m : Mint)
    (h : getPrivateBalance s o m = none) : balanceOf s o m = 0 := by
  unfold balanceOf
  rw [h]

theorem balanceOf_updatePrivateBalance_self (s s' : DBState) (o : Owner) (m : Mint)
    (a : ℚ) (add : Bool) (r : PrivateBalance)
    (h : updatePrivateBalance s o m a add = (s', Except.ok r)) :
    balanceOf s' o m = if add then balanceOf s o m + a else balanceOf s o m - a := by
  unfold updatePrivateBalance at h
  cases add with
  | false =>
      cases hg : getPrivateBalance s o m with
      | none =>
          rw [hg] at h
          simp only [Bool.false_eq_true, if_false, if_true] at h
          injection h with h1 h2
          simp at h2
      | some b =>
          rw [hg] at h
          simp only [Bool.false_eq_true, if_false, if_true] at h
          split at h
          · injection h with h1 h2
            simp at h2
          · injection h with h1 h2
            have hs : s' = setPrivateBalance s o m (b.balance - a) := h1.symm
            subst hs
            have hfind := find?_update_self s.privateBalances o m (b.balance - a) b hg
            have hl : balanceOf (setPrivateBalance s o m (b.balance - a)) o m =
                b.balance - a := by
              unfold balanceOf getPrivateBalance setPrivateBalance
              dsimp only
              rw [hfind]
            rw [hl, balanceOf_getPrivateBalance s o m b hg]
            simp
  | true =>
      cases hg : getPrivateBalance s o m with
      | none =>
          rw [hg] at h
          simp only [Bool.false_eq_true, if_false, if_true] at h
          injection h with h1 h2
          have hs : s' = { s with privateBalances := s.privateBalances ++
              [{ owner := o, tokenMint := m, balance := a,
                 lastCommitmentIndex := 0 }] } := h1.symm
          subst hs
          have hl : balanceOf { s with privateBalances := s.privateBalances ++
              [{ owner := o, tokenMint := m, balance := a,
                 lastCommitmentIndex := 0 }] } o m = a := by
            unfold balanceOf getPrivateBalance
            dsimp only
            rw [List.find?_append]
            have hg2 : List.find? (fun x => x.owner == o && x.tokenMint == m)
                s.privateBalances = none := hg
            rw [hg2]
            simp [List.find?_cons]
          rw [hl, balanceOf_none s o m hg]
          simp
      | some b =>
          rw [hg] at h
          simp only [Bool.false_eq_true, if_false, if_true] at h
          split at h
          · injection h with h1 h2
            simp at h2
          · injection h with h1 h2
            have hs : s' = setPrivateBalance s o m (b.balance + a) := h1.symm
            subst hs
            have hfind := find?_update_self s.privateBalances o m (b.balance + a) b hg
            have hl : balanceOf (setPrivateBalance s o m (b.balance + a)) o m =
                b.balance + a := by
              unfold balanceOf getPrivateBalance setPrivateBalance
              dsimp only
              rw [hfind]
            rw [hl, balanceOf_getPrivateBalance s o m b hg]
            simp

theorem recordTransaction_privateBalances (s : DBState) (o : Owner) (ty : TxType)
    (m : Mint) (sym : String) (a : ℚ) (now : ℕ) (sig : String)
    (recip : Option Owner) :
    (recordTransaction s o ty m sym a now sig recip).1.privateBalances =
      s.privateBalances := by
  unfold recordTransaction
  split <;> rfl

theorem balanceOf_recordTransaction (s : DBState) (o : Owner) (ty : TxType)
    (m : Mint) (sym : String) (a : ℚ) (now : ℕ) (sig : String)
    (recip : Option Owner) (o' : Owner) (m' : Mint) :
    balanceOf (recordTransaction s o ty m sym a now sig recip).1 o' m' =
      balanceOf s o' m' := by
  unfold balanceOf getPrivateBalance
  rw [recordTransaction_privateBalances]

theorem recordTransaction_dup (s : DBState) (o : Owner) (ty : TxType) (m : Mint)
    (sym : String) (a : ℚ) (now : ℕ) (sig : String) (recip : Option Owner)
    (hdup : s.transactions.any (fun t => t.signature == sig) = true) :
    recordTransaction s o ty m sym a now sig recip =
      (s, Except.error DbError.duplicateSignature) := by
  unfold recordTransaction
  rw [if_pos hdup]

theorem recordTransaction_transactions_append (s : DBState) (o : Owner)
    (ty : TxType) (m : Mint) (sym : String) (a : ℚ) (now : ℕ) (sig : String)
    (recip : Option Owner) :
    ∃ tl, (recordTransaction s o ty m sym a now sig recip).1.transactions =
      s.transactions ++ tl := by
  unfold recordTransaction
  split
  · exact ⟨[], (List.append_nil _).symm⟩
  · exact ⟨[_], rfl⟩

theorem recordTransaction_ok_transactions (s s' : DBState) (o : Owner)
    (ty : TxType) (m : Mint) (sym : String) (a : ℚ) (now : ℕ) (sig : String)
    (recip : Option Owner) (tx : Transaction)
    (h : recordTransaction s o ty m sym a now sig recip = (s', Except.ok tx)) :
    s'.transactions = s.transactions ++ [tx] ∧ tx.signature = sig := by
  unfold recordTransaction at h
  split at h
  · injection h with h1 h2
    simp at h2
  · injection h with h1 h2
    injection h2 with h3
    subst h3
    constructor
    · rw [h1.symm]
    · rfl

theorem updateTokenPoolShielded_privateBalances (s : DBState) (m : Mint) (a : ℚ) :
    (updateTokenPoolShielded s m a).privateBalances = s.privateBalances := rfl

theorem updateTokenPoolShielded_transactions (s : DBState) (m : Mint) (a : ℚ) :
    (updateTokenPoolShielded s m a).transactions = s.transactions := rfl

theorem updateTokenPoolUnshielded_privateBalances (s : DBState) (m : Mint) (a : ℚ) :
    (updateTokenPoolUnshielded s m a).privateBalances = s.privateBalances := rfl

theorem updateTokenPoolUnshielded_transactions (s : DBState) (m : Mint) (a : ℚ) :
    (updateTokenPoolUnshielded s m a).transactions = s.transactions := rfl

theorem getOrCreateTokenPool_transactions (s : DBState) (m : Mint) (d : Int)
    (addr : String) :
    (getOrCreateTokenPool s m d addr).1.transactions = s.transactions := by
  unfold getOrCreateTokenPool createTokenPool
  cases getTokenPool s m <;> dsimp only <;> (try split) <;> rfl

theorem getOrCreateTokenPool_privateBalances (s : DBState) (m : Mint) (d : Int)
    (addr : String) :
    (getOrCreateTokenPool s m d addr).1.privateBalances = s.privateBalances := by
  unfold getOrCreateTokenPool createTokenPool
  cases getTokenPool s m <;> dsimp only <;> (try split) <;> rfl

/-! ### Append-only behaviour of the three request handlers -/

theorem shieldNotify_transactions_append (s : DBState) (tf : Bool) (now : ℕ)
    (esig : String) (m : Mint) (a : ℚ) (commitment : String) (o : Owner) :
    ∃ tl, (shieldNotify s tf now esig m a commitment o).1.transactions =
      s.transactions ++ tl := by
  unfold shieldNotify
  split
  · exact ⟨[], (List.append_nil _).symm⟩
  · split
    · exact ⟨[], (List.append_nil _).symm⟩
    · rcases hu : updatePrivateBalance s o m a true with ⟨s1, res1⟩
      have ht1 : s1.transactions = s.transactions := by
        have hx := updatePrivateBalance_transactions s o m a true
        rw [hu] at hx
        exact hx
      cases res1 with
      | error e =>
          refine ⟨[], ?_⟩
          show s1.transactions = s.transactions ++ []
          rw [ht1, List.append_nil]
      | ok r1 =>
          dsimp only
          rcases hr : recordTransaction (updateTokenPoolShielded s1 m a) o
              TxType.shield m (resolveSymbol (updateTokenPoolShielded s1 m a) m)
              a now esig none with ⟨s3, res3⟩
          obtain ⟨tl, htl⟩ := recordTransaction_transactions_append
              (updateTokenPoolShielded s1 m a) o TxType.shield m
              (resolveSymbol (updateTokenPoolShielded s1 m a) m) a now esig none
          rw [hr] at htl
          have ht3 : s3.transactions = s.transactions ++ tl := by
            rw [htl, updateTokenPoolShielded_transactions, ht1]
          cases res3 with
          | error e => exact ⟨tl, ht3⟩
          | ok tx => exact ⟨tl, ht3⟩

theorem sendHandler_transactions_append (s : DBState) (now : ℕ) (m : Mint)
    (a : ℚ) (recipient : Owner) (proof : String) (sender : Owner) :
    ∃ tl, (sendHandler s now m a recipient proof sender).1.transactions =
      s.transactions ++ tl := by
  unfold sendHandler
  split
  · exact ⟨[], (List.append_nil _).symm⟩
  · rcases hu1 : updatePrivateBalance s sender m a false with ⟨s1, res1⟩
    have ht1 : s1.transactions = s.transactions := by
      have hx := updatePrivateBalance_transactions s sender m a false
      rw [hu1] at hx
      exact hx
    cases res1 with
    | error e =>
        refine ⟨[], ?_⟩
        show s1.transactions = s.transactions ++ []
        rw [ht1, List.append_nil]
    | ok r1 =>
        dsimp only
        rcases hu2 : updatePrivateBalance s1 recipient m a true with ⟨s2, res2⟩
        have ht2 : s2.transactions = s.transactions := by
          have hx := updatePrivateBalance_transactions s1 recipient m a true
          rw [hu2] at hx
          rw [hx, ht1]
        cases res2 with
        | error e =>
            refine ⟨[], ?_⟩
            show s2.transactions = s.transactions ++ []
            rw [ht2, List.append_nil]
        | ok r2 =>
            dsimp only
            rcases hr : recordTransaction s2 sender TxType.send m
                (resolveSymbol s2 m) a now ("simulated-send-" ++ toString now)
                (some recipient) with ⟨s3, res3⟩
            obtain ⟨tl, htl⟩ := recordTransaction_transactions_append s2 sender
                TxType.send m (resolveSymbol s2 m) a now
                ("simulated-send-" ++ toString now) (some recipient)
            rw [hr] at htl
            have ht3 : s3.transactions = s.transactions ++ tl := by
              rw [htl, ht2]
            cases res3 with
            | error e => exact ⟨tl, ht3⟩
            | ok tx => exact ⟨tl, ht3⟩

theorem unshieldHandler_transactions_append (s : DBState) (chainOk : Bool)
    (now : ℕ) (m : Mint) (a : ℚ) (recipient : Owner) (proof : String)
    (sender : Owner) (addr : String) :
    ∃ tl, (unshieldHandler s chainOk now m a recipient proof sender addr).1.transactions =
      s.transactions ++ tl := by
  unfold unshieldHandler
  split
  · exact ⟨[], (List.append_nil _).symm⟩
  · rcases hu1 : updatePrivateBalance s sender m a false with ⟨s1, res1⟩
    have ht1 : s1.transactions = s.transactions := by
      have hx := updatePrivateBalance_transactions s sender m a false
      rw [hu1] at hx
      exact hx
    cases res1 with
    | error e =>
        refine ⟨[], ?_⟩
        show s1.transactions = s.transactions ++ []
        rw [ht1, List.append_nil]
    | ok r1 =>
        dsimp only
        rcases hp : getOrCreateTokenPool (updateTokenPoolUnshielded s1 m a) m 0 addr
          with ⟨s3, res3⟩
        have ht3 : s3.transactions = s.transactions := by
          have hx := getOrCreateTokenPool_transactions
              (updateTokenPoolUnshielded s1 m a) m 0 addr
          rw [hp] at hx
          rw [hx, updateTokenPoolUnshielded_transactions, ht1]
        cases res3 with
        | error e =>
            refine ⟨[], ?_⟩
            show s3.transactions = s.transactions ++ []
            rw [ht3, List.append_nil]
        | ok pool =>
            dsimp only
            split
            · refine ⟨[], ?_⟩
              show s3.transactions = s.transactions ++ []
              rw [ht3, List.append_nil]
            · rcases hr : recordTransaction s3 sender TxType.unshield m
                  (resolveSymbol s3 m) a now
                  ("simulated-unshield-" ++ toString now) none with ⟨s4, res4⟩
              obtain ⟨tl, htl⟩ := recordTransaction_transactions_append s3 sender
                  TxType.unshield m (resolveSymbol s3 m) a now
                  ("simulated-unshield-" ++ toString now) none
              rw [hr] at htl
              have ht4 : s4.transactions = s.transactions ++ tl := by
                rw [htl, ht3]
              cases res4 with
              | error e => exact ⟨tl, ht4⟩
              | ok tx => exact ⟨tl, ht4⟩

/-! ### Sorting lemmas for the transaction-history query -/

theorem mem_insertByTs (x t : Transaction) (l : List Transaction) :
    x ∈ insertByTs t l ↔ x = t ∨ x ∈ l := by
  induction l with
  | nil => simp [insertByTs]
  | cons u rest ih =>
      unfold insertByTs
      split
      · simp [List.mem_cons]
      · simp only [List.mem_cons, ih]
        tauto

theorem pairwise_insertByTs (t : Transaction) (l : List Transaction)
    (h : List.Pairwise (fun a b => b.timestamp ≤ a.timestamp) l) :
    List.Pairwise (fun a b => b.timestamp ≤ a.timestamp) (insertByTs t l) := by
  induction l with
  | nil => simp [insertByTs]
  | cons u rest ih =>
      rw [List.pairwise_cons] at h
      unfold insertByTs
      split
      · rename_i hlt
        rw [List.pairwise_cons]
        refine ⟨?_, ?_⟩
        · intro b hb
          rcases List.mem_cons.mp hb with rfl | hb2
          · exact le_of_lt hlt
          · exact le_trans (h.1 b hb2) (le_of_lt hlt)
        · rw [List.pairwise_cons]
          exact h
      · rename_i hnlt
        rw [List.pairwise_cons]
        refine ⟨?_, ih h.2⟩
        intro b hb
        rcases (mem_insertByTs b t rest).mp hb with rfl | hb2
        · exact Nat.not_lt.mp hnlt
        · exact h.1 b hb2

theorem pairwise_sortByTsDesc (l : List Transaction) :
    List.Pairwise (fun a b => b.timestamp ≤ a.timestamp) (sortByTsDesc l) := by
  induction l with
  | nil => simp [sortByTsDesc]
  | cons t rest ih => exact pairwise_insertByTs t _ ih

theorem mem_sortByTsDesc (x : Transaction) (l : List Transaction) :
    x ∈ sortByTsDesc l ↔ x ∈ l := by
  induction l with
  | nil => simp [sortByTsDesc]
  | cons t rest ih =>
      unfold sortByTsDesc
      rw [mem_insertByTs, ih, List.mem_cons]

/-- Running both steps of one call with no interleaving agrees with the
sequential `updatePrivateBalance`: the race model refines the source
function. -/
theorem raceStep_after_read (s : DBState) (op : RaceOp) :
    raceStep s op (RacePhase.readDone (getPrivateBalance s op.owner op.tokenMint)) =
      ((updatePrivateBalance s op.owner op.tokenMint op.amount op.isAddition).1,
       RacePhase.finished
         ((updatePrivateBalance s op.owner op.tokenMint op.amount
             op.isAddition).2.map (fun _ => ()))) := by
  unfold raceStep updatePrivateBalance
  cases hg : getPrivateBalance s op.owner op.tokenMint with
  | some b =>
      dsimp only
      split <;> split <;> rfl
  | none =>
      dsimp only [Option.isSome]
      split <;> rfl

/-! ### The claims -/

/-- C1: the spec demands that two concurrent full-balance debits of the
same (owner, mint) key be serialized, with exactly one success and one
InsufficientBalance failure.  The source's `updatePrivateBalance` is a
read followed by an unconditional write, so under the interleaving
read-read-write-write both calls observe the pre-mutation balance 100,
both pass the negative check, and both report success (the spec itself
flags this unguarded race as a latent bug of the source).  The
serialized schedule, by contrast, produces exactly one success and one
InsufficientBalance. -/
theorem C1_concurrent_full_debits_both_succeed :
    phaseOk (raceExec debitAll debitAll [true, false, true, false]
        (ex1, RacePhase.notStarted, RacePhase.notStarted)).2.1 = true ∧
    phaseOk (raceExec debitAll debitAll [true, false, true, false]
        (ex1, RacePhase.notStarted, RacePhase.notStarted)).2.2 = true ∧
    balanceOf (raceExec debitAll debitAll [true, false, true, false]
        (ex1, RacePhase.notStarted, RacePhase.notStarted)).1 "alice" "SOL" = 0 ∧
    phaseOk (raceExec debitAll debitAll [true, true, false, false]
        (ex1, RacePhase.notStarted, RacePhase.notStarted)).2.1 = true ∧
    phaseErr (raceExec debitAll debitAll [true, true, false, false]
        (ex1, RacePhase.notStarted, RacePhase.notStarted)).2.2
      DbError.insufficientBalance = true := by
  refine ⟨?_, ?_, ?_, ?_, ?_⟩ <;>
    norm_num [raceExec, raceStep, ex1, debitAll, getPrivateBalance,
      setPrivateBalance, phaseOk, phaseErr, balanceOf, List.find?_cons]

/-- C2: a debit (`updatePrivateBalance` with `isAddition = false`) with
no existing row fails with UnknownBalance leaving the database
untouched; with an existing row whose balance minus the amount would be
negative it fails with InsufficientBalance leaving the database
untouched; otherwise it succeeds and the stored balance decreases by
exactly the amount. -/
theorem C2_debit_semantics (s : DBState) (o : Owner) (m : Mint) (a : ℚ) :
    (getPrivateBalance s o m = none →
        updatePrivateBalance s o m a false =
          (s, Except.error DbError.unknownBalance)) ∧
    (∀ b, getPrivateBalance s o m = some b → b.balance - a < 0 →
        updatePrivateBalance s o m a false =
          (s, Except.error DbError.insufficientBalance)) ∧
    (∀ b, getPrivateBalance s o m = some b → ¬ b.balance - a < 0 →
        (updatePrivateBalance s o m a false).2 =
          Except.ok { b with balance := b.balance - a } ∧
        balanceOf (updatePrivateBalance s o m a false).1 o m =
          balanceOf s o m - a) := by
  refine ⟨?_, ?_, ?_⟩
  · intro hn
    unfold updatePrivateBalance
    rw [hn]
    simp only [Bool.false_eq_true, if_false]
  · intro b hb hlt
    unfold updatePrivateBalance
    rw [hb]
    simp only [Bool.false_eq_true, if_false]
    rw [if_pos hlt]
  · intro b hb hge
    unfold updatePrivateBalance
    rw [hb]
    simp only [Bool.false_eq_true, if_false]
    rw [if_neg hge]
    refine ⟨rfl, ?_⟩
    have hfind := find?_update_self s.privateBalances o m (b.balance - a) b hb
    have hl : balanceOf (setPrivateBalance s o m (b.balance - a)) o m =
        b.balance - a := by
      unfold balanceOf getPrivateBalance setPrivateBalance
      dsimp only
      rw [hfind]
    show balanceOf (setPrivateBalance s o m (b.balance - a)) o m =
      balanceOf s o m - a
    rw [hl, balanceOf_getPrivateBalance s o m b hb]

theorem C2_debit_semantics_witness :
    updatePrivateBalance ex0 "alice" "SOL" 5 false =
      (ex0, Except.error DbError.unknownBalance) ∧
    updatePrivateBalance ex1 "alice" "SOL" 200 false =
      (ex1, Except.error DbError.insufficientBalance) ∧
    balanceOf (updatePrivateBalance ex1 "alice" "SOL" 30 false).1 "alice" "SOL" =
      70 := by
  refine ⟨?_, ?_, ?_⟩
  · exact (C2_debit_semantics ex0 "alice" "SOL" 5).1 (by decide)
  · exact (C2_debit_semantics ex1 "alice" "SOL" 200).2.1
      { owner := "alice", tokenMint := "SOL", balance := 100,
        lastCommitmentIndex := 0 } (by decide) (by norm_num)
  · have h := ((C2_debit_semantics ex1 "alice" "SOL" 30).2.2
      { owner := "alice", tokenMint := "SOL", balance := 100,
        lastCommitmentIndex := 0 } (by decide) (by norm_num)).2
    rw [h]
    norm_num [balanceOf, getPrivateBalance, ex1, List.find?_cons]

/-- C3: the spec's invariant says every completed `updatePrivateBalance`
call leaves every stored balance non-negative.  The insert path of the
source applies no sign check to the amount: crediting -5 to a key with
no existing row completes successfully and stores the balance -5.  The
same call is reachable over HTTP through POST /shield/notify, whose
falsiness guard rejects amount = 0 but passes negative amounts. -/
theorem C3_negative_credit_breaks_invariant :
    (updatePrivateBalance ex0 "alice" "SOL" (-5) true).2.isOk = true ∧
    balanceOf (updatePrivateBalance ex0 "alice" "SOL" (-5) true).1 "alice" "SOL" =
      -5 ∧
    (shieldNotify ex0 true 3 "ext-sig" "SOL" (-5) "comm" "alice").2.isOk = true ∧
    balanceOf (shieldNotify ex0 true 3 "ext-sig" "SOL" (-5) "comm" "alice").1
      "alice" "SOL" < 0 := by
  refine ⟨?_, ?_, ?_, ?_⟩ <;> rfl

/-! ### Error-kind inversion lemmas -/

theorem updatePrivateBalance_err_kind (s s' : DBState) (o : Owner) (m : Mint)
    (a : ℚ) (add : Bool) (e : DbError)
    (h : updatePrivateBalance s o m a add = (s', Except.error e)) :
    e = DbError.insufficientBalance ∨ e = DbError.unknownBalance := by
  unfold updatePrivateBalance at h
  cases hg : getPrivateBalance s o m <;> rw [hg] at h <;> dsimp only at h
  case none =>
    split at h
    · injection h with h1 h2
      simp at h2
    · injection h with h1 h2
      injection h2 with h3
      exact Or.inr h3.symm
  case some b =>
    split at h <;> split at h <;> injection h with h1 h2 <;>
      first
        | (injection h2 with h3; exact Or.inl h3.symm)
        | simp at h2

theorem recordTransaction_err_kind (s s' : DBState) (o : Owner) (ty : TxType)
    (m : Mint) (sym : String) (a : ℚ) (now : ℕ) (sig : String)
    (recip : Option Owner) (e : DbError)
    (h : recordTransaction s o ty m sym a now sig recip = (s', Except.error e)) :
    e = DbError.duplicateSignature := by
  unfold recordTransaction at h
  split at h
  · injection h with h1 h2
    injection h2 with h3
    exact h3.symm
  · injection h with h1 h2
    simp at h2

/-! ### Pool-table lookup / update lemmas -/

theorem map_pool_update_id (l : List TokenPool) (m : Mint) (g : TokenPool → TokenPool)
    (h : l.find? (fun x => x.tokenMint == m) = none) :
    l.map (fun x => if x.tokenMint == m then g x else x) = l := by
  induction l with
  | nil => rfl
  | cons hd tl ih =>
      rw [List.find?_eq_none] at h
      have hhd : ¬ (hd.tokenMint == m) = true := h hd (List.mem_cons_self hd tl)
      simp only [List.map_cons, if_neg hhd]
      rw [ih (List.find?_eq_none.mpr (fun x hx => h x (List.mem_cons_of_mem hd hx)))]

theorem find?_pool_update_self (l : List TokenPool) (m : Mint)
    (g : TokenPool → TokenPool) (hg : ∀ x, (g x).tokenMint = x.tokenMint)
    (p : TokenPool) (h : l.find? (fun x => x.tokenMint == m) = some p) :
    (l.map (fun x => if x.tokenMint == m then g x else x)).find?
      (fun x => x.tokenMint == m) = some (g p) := by
  induction l with
  | nil => simp at h
  | cons hd tl ih =>
      by_cases hc : (hd.tokenMint == m) = true
      · simp only [List.find?_cons, hc] at h
        injection h with hb
        subst hb
        simp only [List.map_cons, if_pos hc]
        have hc2 : ((g hd).tokenMint == m) = true := by
          rw [hg hd]
          exact hc
        simp [List.find?_cons, hc2]
      · simp only [List.find?_cons, Bool.eq_false_iff.mpr hc] at h
        simp only [List.map_cons, if_neg hc]
        simp only [List.find?_cons, Bool.eq_false_iff.mpr hc]
        exact ih h

/-- C4 counterexample: a zero-amount debit on an existing record is not
rejected -- it completes successfully (the claim says every zero or
negative amount is rejected with InvalidAmount). -/
theorem C4_counterexample_zero_amount_accepted :
    (updatePrivateBalance ex1 "alice" "SOL" 0 false).2.isOk = true ∧
    balanceOf (updatePrivateBalance ex1 "alice" "SOL" 0 false).1 "alice" "SOL" =
      100 := by
  constructor <;>
    norm_num [updatePrivateBalance, ex1, getPrivateBalance, setPrivateBalance,
      balanceOf, Except.isOk, Except.toBool, List.find?_cons]

/-- C4 amended: neither `updatePrivateBalance` nor the relayer implements
an InvalidAmount rejection.  A zero-amount debit on an existing
non-negative record completes successfully and leaves the balance value
unchanged; the relayer's required-field falsiness check rejects
amount = 0 (as a missing parameter, not InvalidAmount); negative
amounts pass that check and are never rejected on sign grounds. -/
theorem C4_amended_no_amount_validation (s : DBState) (now : ℕ) (m : Mint)
    (r : Owner) (p : String) (o : Owner) (b : PrivateBalance) (a : ℚ)
    (hb : getPrivateBalance s o m = some b) (hpos : 0 ≤ b.balance)
    (hm : (m == "") = false) (hr : (r == "") = false) (hp : (p == "") = false)
    (ho : (o == "") = false) (ha : a < 0) :
    (updatePrivateBalance s o m 0 false).2 =
      Except.ok { b with balance := b.balance - 0 } ∧
    balanceOf (updatePrivateBalance s o m 0 false).1 o m = balanceOf s o m ∧
    sendHandler s now m 0 r p o = (s, Except.error DbError.missingParameters) ∧
    (sendHandler s now m a r p o).2 ≠ Except.error DbError.missingParameters := by
  have hnneg : ¬ b.balance - 0 < 0 := by
    rw [sub_zero]
    exact not_lt.mpr hpos
  refine ⟨?_, ?_, ?_, ?_⟩
  · unfold updatePrivateBalance
    rw [hb]
    simp only [Bool.false_eq_true, if_false]
    rw [if_neg hnneg]
  · unfold updatePrivateBalance
    rw [hb]
    simp only [Bool.false_eq_true, if_false]
    rw [if_neg hnneg]
    have hfind := find?_update_self s.privateBalances o m (b.balance - 0) b hb
    have hl : balanceOf (setPrivateBalance s o m (b.balance - 0)) o m =
        b.balance - 0 := by
      unfold balanceOf getPrivateBalance setPrivateBalance
      dsimp only
      rw [hfind]
    show balanceOf (setPrivateBalance s o m (b.balance - 0)) o m = balanceOf s o m
    rw [hl, balanceOf_getPrivateBalance s o m b hb, sub_zero]
  · unfold sendHandler
    have hguard : (m == "" || (0 : ℚ) == 0 || r == "" || p == "" || o == "") =
        true := by
      simp
    rw [if_pos hguard]
  · unfold sendHandler
    have hguard : (m == "" || a == 0 || r == "" || p == "" || o == "") =
        false := by
      have ha0 : (a == 0) = false := by
        simp only [beq_eq_false_iff_ne]
        exact ne_of_lt ha
      rw [hm, ha0, hr, hp, ho]
      rfl
    rw [hguard]
    simp only [Bool.false_eq_true, if_false]
    rcases hu1 : updatePrivateBalance s o m a false with ⟨s1, res1⟩
    cases res1 with
    | error e =>
        dsimp only
        intro hcontra
        injection hcontra with h3
        rcases updatePrivateBalance_err_kind s s1 o m a false e hu1 with rfl | rfl <;>
          cases h3
    | ok r1 =>
        dsimp only
        rcases hu2 : updatePrivateBalance s1 r m a true with ⟨s2, res2⟩
        cases res2 with
        | error e =>
            dsimp only
            intro hcontra
            injection hcontra with h3
            rcases updatePrivateBalance_err_kind s1 s2 r m a true e hu2 with
              rfl | rfl <;> cases h3
        | ok r2 =>
            dsimp only
            rcases hrec : recordTransaction s2 o TxType.send m
                (resolveSymbol s2 m) a now ("simulated-send-" ++ toString now)
                (some r) with ⟨s3, res3⟩
            cases res3 with
            | error e =>
                dsimp only
                intro hcontra
                injection hcontra with h3
                have := recordTransaction_err_kind s2 s3 o TxType.send m
                    (resolveSymbol s2 m) a now
                    ("simulated-send-" ++ toString now) (some r) e hrec
                rw [this] at h3
                cases h3
            | ok tx =>
                dsimp only
                intro hcontra
                exact Except.noConfusion hcontra

theorem C4_amended_no_amount_validation_witness :
    (updatePrivateBalance ex1 "alice" "SOL" 0 false).2 =
      Except.ok { owner := "alice", tokenMint := "SOL", balance := 100 - 0,
                  lastCommitmentIndex := 0 } ∧
    sendHandler ex1 9 "SOL" 0 "bob" "pf" "alice" =
      (ex1, Except.error DbError.missingParameters) ∧
    (sendHandler ex1 9 "SOL" (-3) "bob" "pf" "alice").2 ≠
      Except.error DbError.missingParameters := by
  have h := C4_amended_no_amount_validation ex1 9 "SOL" "bob" "pf" "alice"
    { owner := "alice", tokenMint := "SOL", balance := 100,
      lastCommitmentIndex := 0 } (-3) (by decide) (by norm_num) (by decide)
    (by decide) (by decide) (by decide) (by norm_num)
  exact ⟨h.1, h.2.2.1, h.2.2.2⟩

/-- C5 counterexample: the pool-total updates are bare SQL UPDATEs; with
no TokenPool row for the mint they match zero rows and complete without
any error, leaving the registry unchanged -- no UnknownMint failure
exists in the code. -/
theorem C5_counterexample_missing_pool_silent :
    getTokenPool ex1 "SOL" = none ∧
    updateTokenPoolShielded ex1 "SOL" 5 = ex1 ∧
    updateTokenPoolUnshielded ex1 "SOL" 5 = ex1 := by
  refine ⟨rfl, rfl, rfl⟩

/-- C5 amended: when no TokenPool row exists for the mint,
`updateTokenPoolShielded` / `updateTokenPoolUnshielded` silently update
zero rows and return with the registry unchanged (no UnknownMint);
when a row exists, the amount is added to `total_shielded` /
`total_unshielded` respectively. -/
theorem C5_amended_pool_updates (s : DBState) (m : Mint) (a : ℚ) :
    (getTokenPool s m = none →
        updateTokenPoolShielded s m a = s ∧
        updateTokenPoolUnshielded s m a = s) ∧
    (∀ p, getTokenPool s m = some p →
        getTokenPool (updateTokenPoolShielded s m a) m =
          some { p with totalShielded := p.totalShielded + a } ∧
        getTokenPool (updateTokenPoolUnshielded s m a) m =
          some { p with totalUnshielded := p.totalUnshielded + a }) := by
  constructor
  · intro hn
    constructor
    · unfold updateTokenPoolShielded
      rw [map_pool_update_id s.tokenPools m _ hn]
    · unfold updateTokenPoolUnshielded
      rw [map_pool_update_id s.tokenPools m _ hn]
  · intro p hp
    constructor
    · unfold getTokenPool updateTokenPoolShielded
      dsimp only
      exact find?_pool_update_self s.tokenPools m
        (fun x => { x with totalShielded := x.totalShielded + a })
        (fun x => rfl) p hp
    · unfold getTokenPool updateTokenPoolUnshielded
      dsimp only
      exact find?_pool_update_self s.tokenPools m
        (fun x => { x with totalUnshielded := x.totalUnshielded + a })
        (fun x => rfl) p hp

theorem C5_amended_pool_updates_witness :
    updateTokenPoolShielded ex1 "SOL" 5 = ex1 ∧
    getTokenPool (updateTokenPoolShielded exPool "SOL" 5) "SOL" =
      some { tokenMint := "SOL", decimals := 9, poolAddress := "pool-addr",
             totalShielded := 10 + 5, totalUnshielded := 2 } ∧
    getTokenPool (updateTokenPoolUnshielded exPool "SOL" 5) "SOL" =
      some { tokenMint := "SOL", decimals := 9, poolAddress := "pool-addr",
             totalShielded := 10, totalUnshielded := 2 + 5 } := by
  refine ⟨((C5_amended_pool_updates ex1 "SOL" 5).1 (by rfl)).1, ?_, ?_⟩
  · exact ((C5_amended_pool_updates exPool "SOL" 5).2
      { tokenMint := "SOL", decimals := 9, poolAddress := "pool-addr",
        totalShielded := 10, totalUnshielded := 2 } (by rfl)).1
  · exact ((C5_amended_pool_updates exPool "SOL" 5).2
      { tokenMint := "SOL", decimals := 9, poolAddress := "pool-addr",
        totalShielded := 10, totalUnshielded := 2 } (by rfl)).2

/-- C6: in each of the three handlers the Balance Ledger mutation is
executed strictly before the Transaction Log write, so a handler run
that appended anything to the log implies its ledger mutation(s)
succeeded; contrapositively, a failed ledger mutation leaves the log
untouched. -/
theorem C6_ledger_mutation_precedes_log (s : DBState) (tf chainOk : Bool)
    (now : ℕ) (esig commitment addr : String) (m : Mint) (a : ℚ)
    (o recipient : Owner) (proof : String) (sender : Owner) :
    ((shieldNotify s tf now esig m a commitment o).1.transactions ≠
        s.transactions →
      (updatePrivateBalance s o m a true).2.isOk = true) ∧
    ((sendHandler s now m a recipient proof sender).1.transactions ≠
        s.transactions →
      (updatePrivateBalance s sender m a false).2.isOk = true ∧
      (updatePrivateBalance (updatePrivateBalance s sender m a false).1
          recipient m a true).2.isOk = true) ∧
    ((unshieldHandler s chainOk now m a recipient proof sender
        addr).1.transactions ≠ s.transactions →
      (updatePrivateBalance s sender m a false).2.isOk = true) := by
  refine ⟨?_, ?_, ?_⟩
  · intro hne
    unfold shieldNotify at hne
    split at hne
    · exact absurd rfl hne
    · split at hne
      · exact absurd rfl hne
      · rcases hu : updatePrivateBalance s o m a true with ⟨s1, res1⟩
        rw [hu] at hne
        cases res1 with
        | error e =>
            dsimp only at hne
            have hs := updatePrivateBalance_err_state s s1 o m a true e hu
            rw [hs] at hne
            exact absurd rfl hne
        | ok r1 => rfl
  · intro hne
    unfold sendHandler at hne
    split at hne
    · exact absurd rfl hne
    · rcases hu1 : updatePrivateBalance s sender m a false with ⟨s1, res1⟩
      rw [hu1] at hne
      cases res1 with
      | error e =>
          dsimp only at hne
          have hs := updatePrivateBalance_err_state s s1 sender m a false e hu1
          rw [hs] at hne
          exact absurd rfl hne
      | ok r1 =>
          dsimp only at hne
          refine ⟨rfl, ?_⟩
          show (updatePrivateBalance s1 recipient m a true).2.isOk = true
          rcases hu2 : updatePrivateBalance s1 recipient m a true with ⟨s2, res2⟩
          rw [hu2] at hne
          cases res2 with
          | error e =>
              dsimp only at hne
              have hs2 := updatePrivateBalance_err_state s1 s2 recipient m a true
                e hu2
              rw [hs2] at hne
              have ht1 := updatePrivateBalance_transactions s sender m a false
              rw [hu1] at ht1
              dsimp only at ht1
              rw [ht1] at hne
              exact absurd rfl hne
          | ok r2 => rfl
  · intro hne
    unfold unshieldHandler at hne
    split at hne
    · exact absurd rfl hne
    · rcases hu1 : updatePrivateBalance s sender m a false with ⟨s1, res1⟩
      rw [hu1] at hne
      cases res1 with
      | error e =>
          dsimp only at hne
          have hs := updatePrivateBalance_err_state s s1 sender m a false e hu1
          rw [hs] at hne
          exact absurd rfl hne
      | ok r1 => rfl

theorem C6_ledger_mutation_precedes_log_witness :
    (updatePrivateBalance ex1 "alice" "SOL" 10 true).2.isOk = true ∧
    (updatePrivateBalance ex1 "alice" "SOL" 10 false).2.isOk = true ∧
    (updatePrivateBalance (updatePrivateBalance ex1 "alice" "SOL" 10 false).1
        "bob" "SOL" 10 true).2.isOk = true := by
  have h := C6_ledger_mutation_precedes_log ex1 true true 7 "esig" "comm" "addr"
    "SOL" 10 "alice" "bob" "pf" "alice"
  have hsend : (sendHandler ex1 7 "SOL" 10 "bob" "pf" "alice").1.transactions ≠
      ex1.transactions := by
    simp +decide [sendHandler, updatePrivateBalance, getPrivateBalance,
      setPrivateBalance, resolveSymbol, getTokenPool, recordTransaction,
      ex1, List.find?_cons, List.any]
  refine ⟨h.1 ?_, (h.2.1 hsend).1, (h.2.1 hsend).2⟩
  simp +decide [shieldNotify, updatePrivateBalance, getPrivateBalance,
    setPrivateBalance, updateTokenPoolShielded, resolveSymbol, getTokenPool,
    recordTransaction, ex1, List.find?_cons, List.any]
  try norm_num
  try simp +decide [List.find?_cons, List.any]

/-- C7: recording a transaction whose signature is already present in the
log fails with DuplicateSignature and writes no second row, and the log
is append-only: every operation of the model leaves the stored
transactions as a prefix of the new table (rows are never updated or
deleted). -/
theorem C7_duplicate_signature_append_only (s : DBState) (o o2 : Owner)
    (ty ty2 : TxType) (m m2 : Mint) (sym sym2 : String) (a a2 : ℚ)
    (now now2 : ℕ) (sig sig2 : String) (recip recip2 : Option Owner)
    (tf chainOk add : Bool) (esig commitment proof addr : String)
    (recipient sender : Owner)
    (hdup : s.transactions.any (fun t => t.signature == sig) = true) :
    recordTransaction s o ty m sym a now sig recip =
      (s, Except.error DbError.duplicateSignature) ∧
    (∃ tl, (recordTransaction s o2 ty2 m2 sym2 a2 now2 sig2
        recip2).1.transactions = s.transactions ++ tl) ∧
    (∃ tl, (shieldNotify s tf now2 esig m2 a2 commitment o2).1.transactions =
        s.transactions ++ tl) ∧
    (∃ tl, (sendHandler s now2 m2 a2 recipient proof sender).1.transactions =
        s.transactions ++ tl) ∧
    (∃ tl, (unshieldHandler s chainOk now2 m2 a2 recipient proof sender
        addr).1.transactions = s.transactions ++ tl) ∧
    (updatePrivateBalance s o2 m2 a2 add).1.transactions = s.transactions ∧
    (updateTokenPoolShielded s m2 a2).transactions = s.transactions ∧
    (updateTokenPoolUnshielded s m2 a2).transactions = s.transactions := by
  exact ⟨recordTransaction_dup s o ty m sym a now sig recip hdup,
    recordTransaction_transactions_append s o2 ty2 m2 sym2 a2 now2 sig2 recip2,
    shieldNotify_transactions_append s tf now2 esig m2 a2 commitment o2,
    sendHandler_transactions_append s now2 m2 a2 recipient proof sender,
    unshieldHandler_transactions_append s chainOk now2 m2 a2 recipient proof
      sender addr,
    updatePrivateBalance_transactions s o2 m2 a2 add,
    rfl, rfl⟩

theorem C7_duplicate_signature_append_only_witness :
    recordTransaction exLog1 "bob" TxType.send "SOL" "SOL" 9 80 "sig-a"
      (some "alice") = (exLog1, Except.error DbError.duplicateSignature) := by
  exact (C7_duplicate_signature_append_only exLog1 "bob" "carol" TxType.send
    TxType.shield "SOL" "USD" "SOL" "U" 9 4 80 81 "sig-a" "sig-x"
    (some "alice") none true true true "esig" "comm" "pf" "addr" "dave" "erin"
    (by rfl)).1

/-- C8 counterexample: the claim quantifies over every accepted Send.  A
self-send (recipient = sender) is accepted by the code -- the debit and
the credit hit the same row -- and the sender's balance does not
decrease by the amount: it ends unchanged at 100, not 70. -/
theorem C8_counterexample_self_send :
    (sendHandler ex1 9 "SOL" 30 "alice" "pf" "alice").2.isOk = true ∧
    balanceOf (sendHandler ex1 9 "SOL" 30 "alice" "pf" "alice").1 "alice"
      "SOL" = 100 ∧
    ¬ balanceOf (sendHandler ex1 9 "SOL" 30 "alice" "pf" "alice").1 "alice"
        "SOL" = balanceOf ex1 "alice" "SOL" - 30 := by
  refine ⟨?_, ?_, ?_⟩ <;>
    (simp +decide [sendHandler, updatePrivateBalance, getPrivateBalance,
       setPrivateBalance, resolveSymbol, getTokenPool, recordTransaction,
       balanceOf, ex1, Except.isOk, Except.toBool, List.find?_cons, List.any] <;>
     try norm_num)

/-- C8 amended: for every accepted Send whose sender and recipient
differ, the sender's balance decreases by exactly the amount and the
recipient's increases by exactly the amount (a self-send is accepted
but leaves the single shared balance unchanged). -/
theorem C8_amended_send_conservation (s : DBState) (now : ℕ) (m : Mint) (a : ℚ)
    (recipient : Owner) (proof : String) (sender : Owner)
    (hne : sender ≠ recipient)
    (hok : (sendHandler s now m a recipient proof sender).2.isOk = true) :
    balanceOf (sendHandler s now m a recipient proof sender).1 sender m =
      balanceOf s sender m - a ∧
    balanceOf (sendHandler s now m a recipient proof sender).1 recipient m =
      balanceOf s recipient m + a := by
  unfold sendHandler at hok ⊢
  by_cases hguard : (m == "" || a == 0 || recipient == "" || proof == "" ||
      sender == "") = true
  · rw [if_pos hguard] at hok
    simp [Except.isOk, Except.toBool] at hok
  · rw [if_neg hguard] at hok ⊢
    rcases hu1 : updatePrivateBalance s sender m a false with ⟨s1, res1⟩
    rw [hu1] at hok
    cases res1 with
    | error e =>
        dsimp only at hok
        simp [Except.isOk, Except.toBool] at hok
    | ok r1 =>
        dsimp only at hok ⊢
        rcases hu2 : updatePrivateBalance s1 recipient m a true with ⟨s2, res2⟩
        rw [hu2] at hok
        cases res2 with
        | error e =>
            dsimp only at hok
            simp [Except.isOk, Except.toBool] at hok
        | ok r2 =>
            dsimp only at hok ⊢
            rcases hrec : recordTransaction s2 sender TxType.send m
                (resolveSymbol s2 m) a now ("simulated-send-" ++ toString now)
                (some recipient) with ⟨s3, res3⟩
            rw [hrec] at hok
            cases res3 with
            | error e =>
                dsimp only at hok
                simp [Except.isOk, Except.toBool] at hok
            | ok tx =>
                dsimp only
                have hb3 : ∀ o' m', balanceOf s3 o' m' = balanceOf s2 o' m' := by
                  intro o' m'
                  have hx := balanceOf_recordTransaction s2 sender TxType.send m
                    (resolveSymbol s2 m) a now
                    ("simulated-send-" ++ toString now) (some recipient) o' m'
                  rw [hrec] at hx
                  exact hx
                have hdeb : balanceOf s1 sender m = balanceOf s sender m - a := by
                  have hx := balanceOf_updatePrivateBalance_self s s1 sender m a
                    false r1 hu1
                  simpa using hx
                have hfr1 : balanceOf s1 recipient m = balanceOf s recipient m := by
                  have hx := balanceOf_updatePrivateBalance_other s sender m a
                    false recipient m (Or.inl (Ne.symm hne))
                  rw [hu1] at hx
                  exact hx
                have hcred : balanceOf s2 recipient m =
                    balanceOf s1 recipient m + a := by
                  have hx := balanceOf_updatePrivateBalance_self s1 s2 recipient
                    m a true r2 hu2
                  simpa using hx
                have hfr2 : balanceOf s2 sender m = balanceOf s1 sender m := by
                  have hx := balanceOf_updatePrivateBalance_other s1 recipient m
                    a true sender m (Or.inl hne)
                  rw [hu2] at hx
                  exact hx
                constructor
                · rw [hb3, hfr2, hdeb]
                · rw [hb3, hcred, hfr1]

theorem C8_amended_send_conservation_witness :
    balanceOf (sendHandler exTwo 9 "SOL" 30 "bob" "pf" "alice").1 "alice"
      "SOL" = balanceOf exTwo "alice" "SOL" - 30 ∧
    balanceOf (sendHandler exTwo 9 "SOL" 30 "bob" "pf" "alice").1 "bob" "SOL" =
      balanceOf exTwo "bob" "SOL" + 30 := by
  exact C8_amended_send_conservation exTwo 9 "SOL" 30 "bob" "pf" "alice"
    (by decide)
    (by simp +decide [sendHandler, updatePrivateBalance, getPrivateBalance,
          setPrivateBalance, resolveSymbol, getTokenPool, recordTransaction,
          exTwo, Except.isOk, Except.toBool, List.find?_cons, List.any] <;>
        try norm_num)

/-- C9 counterexample: timestamps are Date.now() values and nothing
prevents two logged transactions from sharing one; `ORDER BY timestamp
DESC` is then not strictly descending.  In `exLog2` a shield (external
signature) and a send (synthetic signature) were both recorded at clock
value 77; the query returns both and the returned order is not
strictly descending by timestamp. -/
theorem C9_counterexample_equal_timestamps :
    (getTransactions exLog2 "alice" none 50).length = 2 ∧
    ¬ List.Pairwise (fun a b => b.timestamp < a.timestamp)
        (getTransactions exLog2 "alice" none 50) := by
  have hev : getTransactions exLog2 "alice" none 50 =
      [txSendEx, txShieldEx] := by
    rfl
  rw [hev]
  refine ⟨rfl, ?_⟩
  intro hp
  rw [List.pairwise_cons] at hp
  exact absurd (hp.1 _ (List.mem_cons_self _ _)) (by decide)

/-- C9 amended: `getTransactions` returns at most `limit` rows (the
omitted limit defaults to 50), ordered by timestamp in non-increasing
order (ties between equal timestamps are possible, so the order is
descending but not strictly), and contains only rows whose owner
matches, and whose mint matches when a mint filter is given. -/
theorem C9_amended_transaction_query (s : DBState) (owner : Owner)
    (tokenMint : Option Mint) (limit : ℕ) :
    (getTransactions s owner tokenMint limit).length ≤ limit ∧
    List.Pairwise (fun a b => b.timestamp ≤ a.timestamp)
      (getTransactions s owner tokenMint limit) ∧
    (∀ t ∈ getTransactions s owner tokenMint limit,
      t.owner = owner ∧ ∀ mf, tokenMint = some mf → t.tokenMint = mf) ∧
    getTransactionsDefault s owner tokenMint =
      getTransactions s owner tokenMint 50 := by
  refine ⟨?_, ?_, ?_, rfl⟩
  · unfold getTransactions
    cases tokenMint <;> exact List.length_take_le _ _
  · unfold getTransactions
    cases tokenMint <;>
      exact List.Pairwise.sublist (List.take_sublist _ _) (pairwise_sortByTsDesc _)
  · intro t ht
    unfold getTransactions at ht
    cases hmf : tokenMint with
    | none =>
        rw [hmf] at ht
        dsimp only at ht
        have hmem := (mem_sortByTsDesc t _).mp
          ((List.take_sublist _ _).subset ht)
        have hf := List.mem_filter.mp hmem
        refine ⟨by simpa [beq_iff_eq] using hf.2, ?_⟩
        intro mf hcontra
        cases hcontra
    | some mf0 =>
        rw [hmf] at ht
        dsimp only at ht
        have hmem := (mem_sortByTsDesc t _).mp
          ((List.take_sublist _ _).subset ht)
        have hf := List.mem_filter.mp hmem
        have hf2 : t.owner = owner ∧ t.tokenMint = mf0 := by
          simpa [Bool.and_eq_true, beq_iff_eq] using hf.2
        refine ⟨hf2.1, ?_⟩
        intro mf hmf2
        injection hmf2 with hmf3
        rw [← hmf3]
        exact hf2.2

theorem C9_amended_transaction_query_witness :
    (getTransactions exLog2 "alice" none 50).length ≤ 50 ∧
    List.Pairwise (fun a b => b.timestamp ≤ a.timestamp)
      (getTransactions exLog2 "alice" none 50) ∧
    txSendEx.owner = "alice" := by
  have h := C9_amended_transaction_query exLog2 "alice" none 50
  have hmem : txSendEx ∈ getTransactions exLog2 "alice" none 50 := by
    have hev : getTransactions exLog2 "alice" none 50 =
        [txSendEx, txShieldEx] := by
      rfl
    rw [hev]
    exact List.mem_cons_self _ _
  exact ⟨h.1, h.2.1, (h.2.2.1 _ hmem).1⟩

theorem exceptIsOk_exists {α : Type} (r : Except DbError α) (h : r.isOk = true) :
    ∃ v, r = Except.ok v := by
  cases r with
  | error e => simp [Except.isOk, Except.toBool] at h
  | ok v => exact ⟨v, rfl⟩

/-- A successful `/send` returns exactly the signature
`simulated-send-${Date.now()}`, and that signature is in the resulting
log. -/
theorem sendHandler_ok_sig (s s' : DBState) (now : ℕ) (m : Mint) (a : ℚ)
    (recipient : Owner) (proof : String) (sender : Owner) (sig : String)
    (h : sendHandler s now m a recipient proof sender = (s', Except.ok sig)) :
    sig = "simulated-send-" ++ toString now ∧
    s'.transactions.any
      (fun t => t.signature == ("simulated-send-" ++ toString now)) = true := by
  unfold sendHandler at h
  split at h
  · injection h with h1 h2
    simp at h2
  · rcases hu1 : updatePrivateBalance s sender m a false with ⟨s1, res1⟩
    rw [hu1] at h
    cases res1 with
    | error e =>
        dsimp only at h
        injection h with h1 h2
        simp at h2
    | ok r1 =>
        dsimp only at h
        rcases hu2 : updatePrivateBalance s1 recipient m a true with ⟨s2, res2⟩
        rw [hu2] at h
        cases res2 with
        | error e =>
            dsimp only at h
            injection h with h1 h2
            simp at h2
        | ok r2 =>
            dsimp only at h
            rcases hrec : recordTransaction s2 sender TxType.send m
                (resolveSymbol s2 m) a now ("simulated-send-" ++ toString now)
                (some recipient) with ⟨s3, res3⟩
            rw [hrec] at h
            cases res3 with
            | error e =>
                dsimp only at h
                injection h with h1 h2
                simp at h2
            | ok tx =>
                dsimp only at h
                injection h with h1 h2
                injection h2 with h3
                subst h3
                refine ⟨rfl, ?_⟩
                obtain ⟨htr, hsig⟩ := recordTransaction_ok_transactions s2 s3
                  sender TxType.send m (resolveSymbol s2 m) a now
                  ("simulated-send-" ++ toString now) (some recipient) tx hrec
                rw [← h1, htr, List.any_append]
                simp [List.any, hsig]

/-- A successful `/unshield` returns exactly the signature
`simulated-unshield-${Date.now()}`. -/
theorem unshieldHandler_ok_sig (s s' : DBState) (chainOk : Bool) (now : ℕ)
    (m : Mint) (a : ℚ) (recipient : Owner) (proof : String) (sender : Owner)
    (addr : String) (sig : String)
    (h : unshieldHandler s chainOk now m a recipient proof sender addr =
      (s', Except.ok sig)) :
    sig = "simulated-unshield-" ++ toString now := by
  unfold unshieldHandler at h
  split at h
  · injection h with h1 h2
    simp at h2
  · rcases hu1 : updatePrivateBalance s sender m a false with ⟨s1, res1⟩
    rw [hu1] at h
    cases res1 with
    | error e =>
        dsimp only at h
        injection h with h1 h2
        simp at h2
    | ok r1 =>
        dsimp only at h
        rcases hp : getOrCreateTokenPool (updateTokenPoolUnshielded s1 m a) m 0
          addr with ⟨s3, res3⟩
        rw [hp] at h
        cases res3 with
        | error e =>
            dsimp only at h
            injection h with h1 h2
            simp at h2
        | ok pool =>
            dsimp only at h
            split at h
            · injection h with h1 h2
              simp at h2
            · rcases hr : recordTransaction s3 sender TxType.unshield m
                  (resolveSymbol s3 m) a now
                  ("simulated-unshield-" ++ toString now) none with ⟨s4, res4⟩
              rw [hr] at h
              cases res4 with
              | error e =>
                  dsimp only at h
                  injection h with h1 h2
                  simp at h2
              | ok tx =>
                  dsimp only at h
                  injection h with h1 h2
                  injection h2 with h3
                  exact h3.symm

/-- C10: the send (resp. unshield) signature is exactly
`simulated-send-` (resp. `simulated-unshield-`) followed by the
epoch-millisecond clock value, with no other entropy.  Hence a second
send whose signature is generated at the same millisecond collides: its
two balance mutations are applied, and the transaction-log insert then
fails on the signature unique constraint, with the mutations left in
place. -/
theorem C10_simulated_signature_collision (s : DBState) (now : ℕ) (m : Mint)
    (a1 a2 : ℚ) (r1 r2 : Owner) (p1 p2 : String) (o1 o2 : Owner)
    (chainOk : Bool) (addr : String)
    (h1 : (sendHandler s now m a1 r1 p1 o1).2.isOk = true)
    (hne : o2 ≠ r2)
    (hm : (m == "") = false) (ha2 : (a2 == 0) = false)
    (hr2 : (r2 == "") = false) (hp2 : (p2 == "") = false)
    (ho2 : (o2 == "") = false)
    (hdeb : (updatePrivateBalance (sendHandler s now m a1 r1 p1 o1).1 o2 m a2
        false).2.isOk = true)
    (hcred : (updatePrivateBalance
        (updatePrivateBalance (sendHandler s now m a1 r1 p1 o1).1 o2 m a2
            false).1 r2 m a2 true).2.isOk = true) :
    (sendHandler s now m a1 r1 p1 o1).2 =
      Except.ok ("simulated-send-" ++ toString now) ∧
    ((unshieldHandler s chainOk now m a1 r1 p1 o1 addr).2.isOk = true →
      (unshieldHandler s chainOk now m a1 r1 p1 o1 addr).2 =
        Except.ok ("simulated-unshield-" ++ toString now)) ∧
    (sendHandler (sendHandler s now m a1 r1 p1 o1).1 now m a2 r2 p2 o2).2 =
      Except.error DbError.duplicateSignature ∧
    balanceOf (sendHandler (sendHandler s now m a1 r1 p1 o1).1 now m a2 r2 p2
        o2).1 o2 m =
      balanceOf (sendHandler s now m a1 r1 p1 o1).1 o2 m - a2 ∧
    balanceOf (sendHandler (sendHandler s now m a1 r1 p1 o1).1 now m a2 r2 p2
        o2).1 r2 m =
      balanceOf (sendHandler s now m a1 r1 p1 o1).1 r2 m + a2 := by
  rcases hS : sendHandler s now m a1 r1 p1 o1 with ⟨s1, res1⟩
  rw [hS] at h1 hdeb hcred
  dsimp only at h1 hdeb hcred ⊢
  obtain ⟨sig1, hsig1⟩ := exceptIsOk_exists res1 h1
  subst hsig1
  obtain ⟨hsigeq, hany⟩ := sendHandler_ok_sig s s1 now m a1 r1 p1 o1 sig1 hS
  subst hsigeq
  rcases hd : updatePrivateBalance s1 o2 m a2 false with ⟨sd, resd⟩
  rw [hd] at hdeb hcred
  dsimp only at hdeb hcred
  obtain ⟨rd, hrd⟩ := exceptIsOk_exists resd hdeb
  subst hrd
  rcases hc : updatePrivateBalance sd r2 m a2 true with ⟨sc, resc⟩
  rw [hc] at hcred
  obtain ⟨rc, hrc⟩ := exceptIsOk_exists resc hcred
  subst hrc
  have htd : sd.transactions = s1.transactions := by
    have hx := updatePrivateBalance_transactions s1 o2 m a2 false
    rw [hd] at hx
    exact hx
  have htc : sc.transactions = s1.transactions := by
    have hx := updatePrivateBalance_transactions sd r2 m a2 true
    rw [hc] at hx
    rw [hx, htd]
  have hdup : sc.transactions.any
      (fun t => t.signature == ("simulated-send-" ++ toString now)) = true := by
    rw [htc]
    exact hany
  have hguard2 : ¬ (m == "" || a2 == 0 || r2 == "" || p2 == "" || o2 == "") =
      true := by
    rw [hm, ha2, hr2, hp2, ho2]
    simp
  have hsecond : sendHandler s1 now m a2 r2 p2 o2 =
      (sc, Except.error DbError.duplicateSignature) := by
    unfold sendHandler
    rw [if_neg hguard2, hd]
    dsimp only
    rw [hc]
    dsimp only
    rw [recordTransaction_dup sc o2 TxType.send m (resolveSymbol sc m) a2 now
      ("simulated-send-" ++ toString now) (some r2) hdup]
  have hdebv : balanceOf sd o2 m = balanceOf s1 o2 m - a2 := by
    have hx := balanceOf_updatePrivateBalance_self s1 sd o2 m a2 false rd hd
    simpa using hx
  have hfrc : balanceOf sc o2 m = balanceOf sd o2 m := by
    have hx := balanceOf_updatePrivateBalance_other sd r2 m a2 true o2 m
      (Or.inl hne)
    rw [hc] at hx
    exact hx
  have hcredv : balanceOf sc r2 m = balanceOf sd r2 m + a2 := by
    have hx := balanceOf_updatePrivateBalance_self sd sc r2 m a2 true rc hc
    simpa using hx
  have hfrd : balanceOf sd r2 m = balanceOf s1 r2 m := by
    have hx := balanceOf_updatePrivateBalance_other s1 o2 m a2 false r2 m
      (Or.inl (Ne.symm hne))
    rw [hd] at hx
    exact hx
  refine ⟨rfl, ?_, ?_, ?_, ?_⟩
  · intro hok2
    rcases hU : unshieldHandler s chainOk now m a1 r1 p1 o1 addr with ⟨su, resu⟩
    rw [hU] at hok2
    dsimp only at hok2 ⊢
    obtain ⟨sigu, hsigu⟩ := exceptIsOk_exists resu hok2
    subst hsigu
    have hx := unshieldHandler_ok_sig s su chainOk now m a1 r1 p1 o1 addr sigu hU
    rw [hx]
  · rw [hsecond]
  · rw [hsecond]
    dsimp only
    rw [hfrc, hdebv]
  · rw [hsecond]
    dsimp only
    rw [hcredv, hfrd]

theorem C10_simulated_signature_collision_witness :
    (sendHandler exTwo 5 "SOL" 10 "carol" "pf" "alice").2 =
      Except.ok ("simulated-send-" ++ toString 5) ∧
    (sendHandler (sendHandler exTwo 5 "SOL" 10 "carol" "pf" "alice").1 5 "SOL"
        20 "dave" "pf" "bob").2 = Except.error DbError.duplicateSignature ∧
    balanceOf (sendHandler (sendHandler exTwo 5 "SOL" 10 "carol" "pf"
        "alice").1 5 "SOL" 20 "dave" "pf" "bob").1 "bob" "SOL" =
      balanceOf (sendHandler exTwo 5 "SOL" 10 "carol" "pf" "alice").1 "bob"
        "SOL" - 20 := by
  have h := C10_simulated_signature_collision exTwo 5 "SOL" 10 20 "carol"
    "dave" "pf" "pf" "alice" "bob" true "addr"
    (by simp +decide [sendHandler, updatePrivateBalance, getPrivateBalance,
          setPrivateBalance, resolveSymbol, getTokenPool, recordTransaction,
          exTwo, Except.isOk, Except.toBool, List.find?_cons, List.any])
    (by decide) (by decide) (by decide) (by decide) (by decide) (by decide)
    (by simp +decide [sendHandler, updatePrivateBalance, getPrivateBalance,
          setPrivateBalance, resolveSymbol, getTokenPool, recordTransaction,
          exTwo, Except.isOk, Except.toBool, List.find?_cons, List.any])
    (by simp +decide [sendHandler, updatePrivateBalance, getPrivateBalance,
          setPrivateBalance, resolveSymbol, getTokenPool, recordTransaction,
          exTwo, Except.isOk, Except.toBool, List.find?_cons, List.any])
  exact ⟨h.1, h.2.2.1, h.2.2.2.1⟩

end AnonToken
